import Mathlib

/-!
Verification of the market-data access layer and the equity-curve builder of
the Multify futures-trading repository.

The Python source (src/fetch_data/fetchData.py and
src/quantstats/quant_analysis.py) is shallowly embedded as follows.

* A database timestamp is a pair of a civil day index (days since 1970-01-01,
  as an `Int`) and a millisecond-of-day (`Nat`).  The `YYYY-MM-DD` date
  strings that the Python code formats and substitutes into its queries are
  modelled by the day index they denote; `daysFromCivil` provides readable
  encodings of concrete calendar dates (civil calendar, Hinnant algorithm).
* The process-wide connection/cursor pair and its repair-on-failure protocol
  (the try/except blocks repeated in every fetch function) are modelled by
  `executeWithRepair`.  A `SessionEnv` is a failure oracle: it says, for the
  n-th cursor.execute call of one operation, whether that call raises (and
  with which message), and whether cursor.close() raises during repair.  The
  store content is deterministic, so the value an execute would return is
  passed in; every session-level action is recorded in an `Event` trace.
  Closing/reopening the connection and opening a cursor are assumed to
  succeed, as the source assumes.
* Each query template of the source is a constructor of `Query`, carrying the
  values the source interpolates into the SQL text (day indices stand for the
  formatted date strings, injectively).
* The store's answer to each query is computed from an explicit table by a
  `...Rows` function that models the standard SQL semantics of the WHERE /
  DISTINCT / ORDER BY clauses of that query.  The trading-days query has no
  ORDER BY and no sort on the Python side; a store returns DISTINCT rows in
  an unspecified order, modelled here as the scan order produced by
  `List.dedup` (any fixed order is a legitimate store behaviour).  The
  options query relies on store-specific SAMPLE BY aggregation, an external
  capability, so the rows that query returns are taken as an input of
  `fetchDataOptions` rather than recomputed.
* OHLC / volume payload columns are carried by the source unchanged and are
  irrelevant to every claim, so a result row is modelled by its key columns:
  its timestamp (plus the contract month for futures rows).
* Exceptions are modelled by `Except` with the error taxonomy `Err`; the
  message of a raised f-string is modelled as the list of its interpolated
  fragments (`List String`), so that "the message contains X" is list
  membership.
* The equity/return computation of `generate_quantstats_report`
  (quant_analysis.py lines 69-96) is embedded over exact rationals; the
  report-rendering tail of that function is out of scope.  `pct_change`
  produces NaN exactly where the previous value is zero and the difference is
  zero, and `dropna` removes those entries; `pctChangeDropna` models this
  with `filterMap`.
-/

namespace MultifyFutures

/-- A store timestamp: civil day index (days since 1970-01-01) and
milliseconds since that day's midnight. -/
structure Timestamp where
  day : Int
  ms : Nat
deriving DecidableEq, Repr

/-- Midnight of a civil day, the value a bare date string denotes when the
store compares it against a timestamp column. -/
def midnight (d : Int) : Timestamp := ⟨d, 0⟩

/-- Lexicographic order on timestamps, matching store timestamp order. -/
def tsLe (a b : Timestamp) : Prop :=
  a.day < b.day ∨ (a.day = b.day ∧ a.ms ≤ b.ms)

instance instDecTsLe : DecidableRel tsLe := fun a b => by
  unfold tsLe
  exact inferInstance

/-- Boolean form of the timestamp order, used inside query filters. -/
def tsLeB (a b : Timestamp) : Bool :=
  decide (a.day < b.day) || (decide (a.day = b.day) && decide (a.ms ≤ b.ms))

/-- Day index of a civil calendar date (days since 1970-01-01, Hinnant's
days-from-civil algorithm); gives readable encodings of concrete dates. -/
def daysFromCivil (y m d : Int) : Int :=
  let yAdj : Int := if m ≤ 2 then y - 1 else y
  let era : Int := (if 0 ≤ yAdj then yAdj else yAdj - 399).ediv 400
  let yoe : Int := yAdj - era * 400
  let mp : Int := (m + 9) % 12
  let doy : Int := (153 * mp + 2).ediv 5 + d - 1
  let doe : Int := yoe * 365 + yoe.ediv 4 - yoe.ediv 100 + doy
  era * 146097 + doe - 719468

/-- Failure oracle for one retrieval operation: whether the n-th
cursor.execute call raises (with which message), and whether cursor.close()
raises during the repair. -/
structure SessionEnv where
  execFails : Nat → Option String
  closeCursorFails : Bool

/-- The rendered query of each retrieval operation, carrying the values the
source interpolates into the SQL text (day indices stand for the formatted
date strings). -/
inductive Query where
  | tradingDaysQ
  | expiryDaysQ
  | indexBarsQ (symbol : String) (s eEx : Int)
  | optionBarsQ (symbol : String) (s eEx : Int) (strike : Int) (expiry : Int)
      (callPut : String)
  | contractMonthsQ (symbol : String)
  | futuresBarsQ (symbol : String) (s eEx : Int) (contractMonth : String)
deriving DecidableEq, Repr

/-- Session-level actions performed by one retrieval operation, in order. -/
inductive Event where
  | exec (q : Query)
  | closeCursor
  | closeConn
  | reconnect
  | newCursor
deriving DecidableEq, Repr

/-- The repair actions of the except-block: cursor.close() is attempted; only
when it raises is the connection closed and reopened from the configuration
source; afterwards a fresh cursor is opened. -/
def repairBlock (closeFails : Bool) : List Event :=
  if closeFails then
    [Event.closeCursor, Event.closeConn, Event.reconnect, Event.newCursor]
  else
    [Event.closeCursor, Event.newCursor]

/-- The try/except execute pattern repeated in every fetch function:
execute; on failure repair the session once and resubmit the identical query;
a failure of the resubmission propagates unmodified.  Returns the outcome and
the trace of session events. -/
def executeWithRepair {R : Type} (env : SessionEnv) (q : Query) (result : R) :
    Except String R × List Event :=
  match env.execFails 0 with
  | none => (Except.ok result, [Event.exec q])
  | some _ =>
    match env.execFails 1 with
    | none =>
        (Except.ok result,
          Event.exec q :: (repairBlock env.closeCursorFails ++ [Event.exec q]))
    | some m =>
        (Except.error m,
          Event.exec q :: (repairBlock env.closeCursorFails ++ [Event.exec q]))

/-- The execute events of a trace. -/
def execEvents (tr : List Event) : List Event :=
  tr.filter fun ev =>
    match ev with
    | Event.exec _ => true
    | _ => false

/-- The store answers within the single-retry budget (first or second execute
succeeds). -/
def execSucceeds (env : SessionEnv) : Prop :=
  env.execFails 0 = none ∨ env.execFails 1 = none

/-- Error taxonomy of the embedded layer: `validationErr` models the
`raise Exception` of the symbol checks, `sessionErr` a store error that
escaped the single retry, `notFound` the empty-result raises (message as its
interpolated fragments), `keyErr` a pandas missing-column lookup. -/
inductive Err where
  | validationErr (msg : String)
  | sessionErr (msg : String)
  | notFound (parts : List String)
  | keyErr (col : String)
deriving DecidableEq, Repr

/-- Store semantics of the trading-days query
(SELECT DISTINCT DATE_TRUNC(day, Datetime) FROM spx_index — no ORDER BY):
the distinct day truncations of the index table, in scan order. -/
def tradingDaysRows (spxIndex : List Timestamp) : List Int :=
  (spxIndex.map Timestamp.day).dedup

/-- Store semantics of the expiry-days query
(SELECT DISTINCT Expiry FROM spxw_options_ohlcv ORDER BY Expiry ASC). -/
def expiryDaysRows (expiries : List Int) : List Int :=
  expiries.dedup.insertionSort (· ≤ ·)

/-- Store semantics of the index-bars query: WHERE Datetime >= start AND
Datetime <= endExclusive ORDER BY Datetime, both bounds compared against the
midnight the substituted date string denotes. -/
def indexBarsRows (table : List Timestamp) (s eEx : Int) : List Timestamp :=
  (table.filter fun t => tsLeB (midnight s) t && tsLeB t (midnight eEx)).insertionSort tsLe

/-- A row of a futures table, keyed by timestamp and contract month (the
OHLCV payload is carried unchanged by the source and omitted). -/
structure FutRow where
  ts : Timestamp
  contractMonth : String
deriving DecidableEq, Repr

/-- Store semantics of the futures-bars query: the index-bars range filter
plus the contract-month equality, ORDER BY Datetime. -/
def futuresBarsRows (table : List FutRow) (s eEx : Int) (cm : String) :
    List FutRow :=
  (table.filter fun r =>
      tsLeB (midnight s) r.ts && tsLeB r.ts (midnight eEx) &&
        (r.contractMonth == cm)).insertionSort
    fun a b => tsLe a.ts b.ts

/-- Store semantics of the contract-months query
(SELECT DISTINCT Contract_month ... ORDER BY Contract_month ASC). -/
def contractMonthRows (months : List String) : List String :=
  months.dedup.insertionSort (· ≤ ·)

/-- Fragments of the f-string
"Index data not found - {startDate}__{endDate}__{symbol}" (the endDate
variable holds the exclusive-adjusted date by the time of the raise). -/
def indexNotFoundMsg (s eEx : Int) (symbol : String) : List String :=
  ["Index data not found", toString s, toString eEx, symbol]

/-- Fragments of the f-string
"Futures data not found - {startDate}__{endDate}__{symbol}". -/
def futuresNotFoundMsg (s eEx : Int) (symbol : String) : List String :=
  ["Futures data not found", toString s, toString eEx, symbol]

/-- Fragments of the f-string
"Options data Not found - {startDate}__{endDate}__{strike}__{expiryDate}__{callPut}". -/
def optionsNotFoundMsg (s eEx strike expiry : Int) (callPut : String) :
    List String :=
  ["Options data Not found", toString s, toString eEx, toString strike,
    toString expiry, callPut]

/-- Model of fetchTradingDays: execute with repair, then build the frame and
read its dates column — a lookup that raises KeyError on an empty frame
(an empty fetchall yields a DataFrame with no columns). -/
def fetchTradingDays (env : SessionEnv) (spxIndex : List Timestamp) :
    Except Err (List Int) × List Event :=
  let r := executeWithRepair env Query.tradingDaysQ (tradingDaysRows spxIndex)
  (match r.1 with
    | Except.error m => Except.error (Err.sessionErr m)
    | Except.ok rows =>
        if rows.isEmpty then Except.error (Err.keyErr "dates")
        else Except.ok rows,
    r.2)

/-- Model of fetchExpiryDays: symbol must be SPXW before any query; on an
empty frame the Expiry column lookup raises KeyError; otherwise the dates are
sorted again on the pandas side (df.sort_values). -/
def fetchExpiryDays (env : SessionEnv) (expiries : List Int) (symbol : String) :
    Except Err (List Int) × List Event :=
  if symbol ∈ (["SPXW"] : List String) then
    let r := executeWithRepair env Query.expiryDaysQ (expiryDaysRows expiries)
    (match r.1 with
      | Except.error m => Except.error (Err.sessionErr m)
      | Except.ok rows =>
          if rows.isEmpty then Except.error (Err.keyErr "Expiry")
          else Except.ok (rows.insertionSort (· ≤ ·)),
      r.2)
  else (Except.error (Err.validationErr "Invalid symbol"), [])

/-- Model of fetchDataIndex: symbol must be SPX before any query; the end
date is exclusive-adjusted by one day; an empty result raises the
index not-found message; otherwise the timestamp-indexed rows are returned. -/
def fetchDataIndex (env : SessionEnv) (table : List Timestamp) (symbol : String)
    (s e : Int) : Except Err (List Timestamp) × List Event :=
  if symbol ∈ (["SPX"] : List String) then
    let eEx := e + 1
    let r := executeWithRepair env (Query.indexBarsQ symbol s eEx)
      (indexBarsRows table s eEx)
    (match r.1 with
      | Except.error m => Except.error (Err.sessionErr m)
      | Except.ok rows =>
          if rows.isEmpty then
            Except.error (Err.notFound (indexNotFoundMsg s eEx symbol))
          else Except.ok rows,
      r.2)
  else (Except.error (Err.validationErr "Invalid symbol"), [])

/-- Pandas between_time with both ends inclusive and the bounds 09:30 and
15:59 of the source: time-of-day in [09:30:00.000, 15:59:00.000]. -/
def betweenTimeB (t : Timestamp) : Bool :=
  decide (34200000 ≤ t.ms) && decide (t.ms ≤ 57540000)

/-- Round a millisecond-of-day to the nearest whole second, ties to the even
second (pandas round semantics). -/
def roundSecMs (ms : Nat) : Nat :=
  if ms % 1000 < 500 then ms / 1000
  else if 500 < ms % 1000 then ms / 1000 + 1
  else if (ms / 1000) % 2 = 0 then ms / 1000 else ms / 1000 + 1

/-- Round a timestamp to a whole second (DatetimeIndex.round with second
frequency), carrying a rounded-up midnight into the next day. -/
def roundTsToSec (t : Timestamp) : Timestamp :=
  let sec := roundSecMs t.ms
  ⟨t.day + Int.ofNat (sec / 86400), (sec % 86400) * 1000⟩

/-- Pandas shaping of the options result: restrict to the session window,
then round the index to whole seconds. -/
def shapeOptions (rows : List Timestamp) : List Timestamp :=
  (rows.filter betweenTimeB).map roundTsToSec

/-- Model of fetchDataOptions: symbol must be SPXW before any query; the end
date is exclusive-adjusted by one day; the rows the store-side SAMPLE BY
aggregation returns are an input (an external store capability); an empty
store result raises the options not-found message; otherwise the rows are
session-window filtered and second-rounded. -/
def fetchDataOptions (env : SessionEnv) (storeRows : List Timestamp)
    (symbol : String) (s e : Int) (strike : Int) (expiry : Int)
    (callPut : String) : Except Err (List Timestamp) × List Event :=
  if symbol ∈ (["SPXW"] : List String) then
    let eEx := e + 1
    let r := executeWithRepair env
      (Query.optionBarsQ symbol s eEx strike expiry callPut) storeRows
    (match r.1 with
      | Except.error m => Except.error (Err.sessionErr m)
      | Except.ok rows =>
          if rows.isEmpty then
            Except.error
              (Err.notFound (optionsNotFoundMsg s eEx strike expiry callPut))
          else Except.ok (shapeOptions rows),
      r.2)
  else (Except.error (Err.validationErr "Invalid symbol"), [])

/-- Model of fetchContractMonthFutures: no validation, no empty check; the
distinct contract months are returned as the store yields them. -/
def fetchContractMonthFutures (env : SessionEnv) (months : List String)
    (symbol : String) : Except Err (List String) × List Event :=
  let r := executeWithRepair env (Query.contractMonthsQ symbol)
    (contractMonthRows months)
  (match r.1 with
    | Except.error m => Except.error (Err.sessionErr m)
    | Except.ok rows => Except.ok rows,
    r.2)

/-- Model of fetchDataFutures: no symbol validation in the active source; the
end date is exclusive-adjusted by one day; an empty result raises the futures
not-found message (which interpolates the symbol but not the contract
month). -/
def fetchDataFutures (env : SessionEnv) (table : List FutRow) (symbol : String)
    (s e : Int) (contractMonth : String) :
    Except Err (List FutRow) × List Event :=
  let eEx := e + 1
  let r := executeWithRepair env (Query.futuresBarsQ symbol s eEx contractMonth)
    (futuresBarsRows table s eEx contractMonth)
  (match r.1 with
    | Except.error m => Except.error (Err.sessionErr m)
    | Except.ok rows =>
        if rows.isEmpty then
          Except.error (Err.notFound (futuresNotFoundMsg s eEx symbol))
        else Except.ok rows,
    r.2)

/-- A trade of the input trade log (quant_analysis.py): entry and exit day
indices and the profit/loss in points; the position side and the optional
columns play no role in the equity computation. -/
structure Trade where
  entryDay : Int
  exitDay : Int
  pnl : ℚ
deriving DecidableEq, Repr

/-- Trades sorted by exit time ascending (trades_df.sort_values). -/
def sortByExit (trades : List Trade) : List Trade :=
  trades.insertionSort fun a b => a.exitDay ≤ b.exitDay

/-- Earliest entry day of the log (trades_df entry_time min); only used on
non-empty logs. -/
def minEntry (trades : List Trade) : Int :=
  match trades with
  | [] => 0
  | t :: ts => ts.foldl (fun m u => min m u.entryDay) t.entryDay

/-- The full equity list of the source: the initial capital followed by the
running equity after each trade, in exit order (the Python list named
equity). -/
def equityFull (trades : List Trade) (cap pv : ℚ) : List ℚ :=
  (sortByExit trades).scanl (fun eq t => eq + t.pnl * pv) cap

/-- The full date list of the source: one day before the earliest entry,
followed by each trade's exit day in exit order (the Python list named
dates). -/
def datesFull (trades : List Trade) : List Int :=
  (minEntry trades - 1) :: (sortByExit trades).map Trade.exitDay

/-- The returned equity series: pd.Series(equity[1:], index=dates[1:]) — the
seed point is sliced off. -/
def equitySeries (trades : List Trade) (cap pv : ℚ) : List (Int × ℚ) :=
  (datesFull trades).tail.zip (equityFull trades cap pv).tail

/-- equity_series.pct_change().dropna(): each point paired with its
predecessor; a 0/0 entry is NaN and is dropped, any other entry keeps the
simple return against the predecessor (an x/0 entry is infinite in the
source and kept; over ℚ it is the junk value 0). -/
def pctChangeDropna (pts : List (Int × ℚ)) : List (Int × ℚ) :=
  (pts.tail.zip pts).filterMap fun cp =>
    if cp.2.2 = 0 ∧ cp.1.2 - cp.2.2 = 0 then none
    else some (cp.1.1, (cp.1.2 - cp.2.2) / cp.2.2)

/-- Whether some equity point and its predecessor are both zero — exactly
the entries pct_change turns into NaN. -/
def hasConsecZero (pts : List (Int × ℚ)) : Bool :=
  (pts.tail.zip pts).any fun cp =>
    decide (cp.2.2 = 0 ∧ cp.1.2 - cp.2.2 = 0)

/-- The equity/return computation of generate_quantstats_report
(quant_analysis.py lines 69-96): the returned equity series and the return
series with the first-day return prepended.  On an empty trade log the
source raises (iloc on an empty series), modelled by none. -/
def generate_quantstats_report (trades : List Trade) (cap pv : ℚ) :
    Option (List (Int × ℚ) × List (Int × ℚ)) :=
  match equitySeries trades cap pv with
  | [] => none
  | p :: rest =>
      some (p :: rest,
        (p.1, (p.2 - cap) / cap) :: pctChangeDropna (p :: rest))

/-- A session environment in which every execute succeeds. -/
def envOk : SessionEnv := ⟨fun _ => none, false⟩

/-- A session environment in which the first and second execute both fail and
cursor.close() also fails during the repair. -/
def envFailTwice : SessionEnv :=
  ⟨fun n => if n = 0 then some "first failure" else some "second failure", true⟩

/-! Helper lemmas. -/

lemma executeWithRepair_fst_ok {R : Type} (env : SessionEnv) (q : Query)
    (r : R) (h : execSucceeds env) :
    (executeWithRepair env q r).1 = Except.ok r := by
  unfold executeWithRepair
  cases h0 : env.execFails 0 with
  | none => rfl
  | some m =>
      cases h1 : env.execFails 1 with
      | none => rfl
      | some m1 =>
          rcases h with h | h
          · exact absurd h0 (by rw [h]; exact fun hc => Option.noConfusion hc)
          · exact absurd h1 (by rw [h]; exact fun hc => Option.noConfusion hc)

lemma executeWithRepair_trace {R : Type} (env : SessionEnv) (q : Query)
    (r : R) :
    (executeWithRepair env q r).2
      = match env.execFails 0 with
        | none => [Event.exec q]
        | some _ =>
            Event.exec q :: (repairBlock env.closeCursorFails ++ [Event.exec q]) := by
  unfold executeWithRepair
  cases h0 : env.execFails 0 <;> cases h1 : env.execFails 1 <;> rfl

lemma execEvents_single (q : Query) : execEvents [Event.exec q] = [Event.exec q] := rfl

lemma execEvents_repaired (q : Query) (b : Bool) :
    execEvents (Event.exec q :: (repairBlock b ++ [Event.exec q]))
      = [Event.exec q, Event.exec q] := by
  cases b <;> rfl

lemma filterMap_if_eq_map {α β : Type} (P : α → Prop) [DecidablePred P]
    (g : α → β) (l : List α) (h : ∀ x ∈ l, ¬ P x) :
    (l.filterMap fun x => if P x then none else some (g x)) = l.map g := by
  induction l with
  | nil => rfl
  | cons a l ih =>
      rw [List.filterMap_cons, if_neg (h a (by simp)), List.map_cons,
        ih fun x hx => h x (by simp [hx])]

lemma pctChangeDropna_of_no_consec (pts : List (Int × ℚ))
    (h : hasConsecZero pts = false) :
    pctChangeDropna pts
      = (pts.tail.zip pts).map fun cp => (cp.1.1, (cp.1.2 - cp.2.2) / cp.2.2) := by
  unfold pctChangeDropna
  refine filterMap_if_eq_map _ _ _ fun cp hcp => ?_
  unfold hasConsecZero at h
  rw [List.any_eq_false] at h
  have := h cp hcp
  simpa using this

lemma executeWithRepair_ok_inv {R : Type} (env : SessionEnv) (q : Query)
    (r x : R) (h : (executeWithRepair env q r).1 = Except.ok x) : x = r := by
  unfold executeWithRepair at h
  cases h0 : env.execFails 0 <;> rw [h0] at h
  · exact (Except.ok.inj h).symm
  · cases h1 : env.execFails 1 <;> rw [h1] at h
    · exact (Except.ok.inj h).symm
    · exact absurd h (by simp)

/-- C7: on the two-trade log of the spec's worked example (initial capital
100000, point value 20, pnl +10 exiting 2024-01-02 and -5 exiting
2024-01-03), the builder yields equity [100200, 100100] dated
[2024-01-02, 2024-01-03] and the first return is 1/500 = 0.002. -/
theorem C7_equity_concrete :
    generate_quantstats_report
        [⟨daysFromCivil 2024 1 1, daysFromCivil 2024 1 2, 10⟩,
          ⟨daysFromCivil 2024 1 2, daysFromCivil 2024 1 3, -5⟩] 100000 20
      = some
          ([(daysFromCivil 2024 1 2, 100200), (daysFromCivil 2024 1 3, 100100)],
            [(daysFromCivil 2024 1 2, 1 / 500),
              (daysFromCivil 2024 1 3, -(1 / 1002))]) := by
  norm_num [generate_quantstats_report, equitySeries, datesFull, equityFull,
    sortByExit, minEntry, pctChangeDropna, List.insertionSort,
    List.orderedInsert, List.scanl, daysFromCivil, List.filterMap_cons,
    List.filterMap_nil]

/-- C8 counterexample: on the single-trade log entering 2024-01-05 and
exiting 2024-01-07 with capital 100 and point value 2, the returned equity
series starts at the exit date 2024-01-07 with value 102 — not one calendar
day before the entry date and not with the initial capital: the seed point is
sliced off the returned series. -/
theorem C8_counterexample :
    generate_quantstats_report
        [⟨daysFromCivil 2024 1 5, daysFromCivil 2024 1 7, 1⟩] 100 2
      = some ([(daysFromCivil 2024 1 7, 102)], [(daysFromCivil 2024 1 7, 1 / 50)])
    ∧ daysFromCivil 2024 1 7 ≠ daysFromCivil 2024 1 5 - 1
    ∧ (102 : ℚ) ≠ 100 := by
  refine ⟨?_, by decide, by norm_num⟩
  norm_num [generate_quantstats_report, equitySeries, datesFull, equityFull,
    sortByExit, minEntry, pctChangeDropna, List.insertionSort,
    List.orderedInsert, List.scanl, daysFromCivil, List.filterMap_cons,
    List.filterMap_nil]

/-- C8 amended: the internal curve is seeded with the initial capital dated
one calendar day before the earliest entry, but the returned equity series
excludes that seed point: it starts at the earliest-exit trade's exit date
carrying initialCapital + pnl * pointValue. -/
theorem C8_amended (trades : List Trade) (cap pv : ℚ) (t : Trade)
    (ts : List Trade) (h : sortByExit trades = t :: ts) :
    (datesFull trades).head? = some (minEntry trades - 1)
    ∧ (equityFull trades cap pv).head? = some cap
    ∧ ∃ rest,
        generate_quantstats_report trades cap pv
          = some ((t.exitDay, cap + t.pnl * pv) :: rest,
              (t.exitDay, (cap + t.pnl * pv - cap) / cap)
                :: pctChangeDropna ((t.exitDay, cap + t.pnl * pv) :: rest)) := by
  have hdates : (datesFull trades).tail = t.exitDay :: ts.map Trade.exitDay := by
    simp [datesFull, h]
  have hequity : equityFull trades cap pv
      = cap :: List.scanl (fun eq u => eq + u.pnl * pv) (cap + t.pnl * pv) ts := by
    simp [equityFull, h, List.scanl_cons]
  obtain ⟨X, hX⟩ : ∃ X,
      List.scanl (fun eq u => eq + u.pnl * pv) (cap + t.pnl * pv) ts
        = (cap + t.pnl * pv) :: X := by
    cases ts with
    | nil => exact ⟨[], by simp [List.scanl_nil]⟩
    | cons u us => exact ⟨_, by rw [List.scanl_cons]; rfl⟩
  have hseries : equitySeries trades cap pv
      = (t.exitDay, cap + t.pnl * pv) :: (ts.map Trade.exitDay).zip X := by
    rw [equitySeries, hdates, hequity, List.tail_cons, hX, List.zip_cons_cons]
  refine ⟨by simp [datesFull], by simp [hequity], ⟨(ts.map Trade.exitDay).zip X, ?_⟩⟩
  rw [generate_quantstats_report, hseries]

/-- C8 amended witness at a concrete single-trade log. -/
theorem C8_amended_witness :
    (datesFull [⟨5, 7, 1⟩]).head? = some (minEntry [⟨5, 7, 1⟩] - 1)
    ∧ (equityFull [⟨5, 7, 1⟩] 100 2).head? = some 100
    ∧ ∃ rest,
        generate_quantstats_report [⟨5, 7, 1⟩] 100 2
          = some (((7 : Int), (100 : ℚ) + 1 * 2) :: rest,
              ((7 : Int), ((100 : ℚ) + 1 * 2 - 100) / 100)
                :: pctChangeDropna (((7 : Int), (100 : ℚ) + 1 * 2) :: rest)) :=
  C8_amended [⟨5, 7, 1⟩] 100 2 ⟨5, 7, 1⟩ [] (by decide)

/-- C9 counterexample: when the running equity reaches zero twice in a row
(pnl -5000 then 0 at point value 20 from capital 100000), the 0/0 percentage
change is dropped, so the return series has one element while the returned
equity series has two — the claimed length equality fails on this log. -/
theorem C9_counterexample :
    generate_quantstats_report [⟨0, 1, -5000⟩, ⟨1, 2, 0⟩] 100000 20
      = some ([(1, 0), (2, 0)], [(1, -1)])
    ∧ ¬ ([((1 : Int), (-1 : ℚ))].length
          = [((1 : Int), (0 : ℚ)), (2, 0)].length) := by
  refine ⟨?_, by decide⟩
  norm_num [generate_quantstats_report, equitySeries, datesFull, equityFull,
    sortByExit, minEntry, pctChangeDropna, List.insertionSort,
    List.orderedInsert, List.scanl, List.filterMap_cons, List.filterMap_nil]

/-- C9 amended: whenever no equity point and its predecessor are both zero,
the return series has exactly the length of the returned equity series, its
first element is (equity0 - initialCapital) / initialCapital at the first
equity date, and every later element is the simple percentage change against
the predecessor equity point. -/
theorem C9_amended (trades : List Trade) (cap pv : ℚ)
    (eqs rets : List (Int × ℚ))
    (hgen : generate_quantstats_report trades cap pv = some (eqs, rets))
    (hnz : hasConsecZero eqs = false) :
    rets.length = eqs.length
    ∧ (∀ p, eqs.head? = some p → rets.head? = some (p.1, (p.2 - cap) / cap))
    ∧ rets.tail
        = (eqs.tail.zip eqs).map fun cp => (cp.1.1, (cp.1.2 - cp.2.2) / cp.2.2) := by
  cases hE : equitySeries trades cap pv with
  | nil => rw [generate_quantstats_report, hE] at hgen; exact absurd hgen (by simp)
  | cons p rest =>
      rw [generate_quantstats_report, hE] at hgen
      have heq : eqs = p :: rest := by
        have := hgen
        simp only [Option.some.injEq, Prod.mk.injEq] at this
        exact this.1.symm
      have hrets : rets
          = (p.1, (p.2 - cap) / cap) :: pctChangeDropna (p :: rest) := by
        have := hgen
        simp only [Option.some.injEq, Prod.mk.injEq] at this
        exact this.2.symm
      have hpct : pctChangeDropna (p :: rest)
          = ((p :: rest).tail.zip (p :: rest)).map
              fun cp => (cp.1.1, (cp.1.2 - cp.2.2) / cp.2.2) :=
        pctChangeDropna_of_no_consec _ (heq ▸ hnz)
      subst heq
      refine ⟨?_, ?_, ?_⟩
      · rw [hrets, hpct]
        simp [List.length_zip]
      · intro q hq
        simp only [List.head?_cons, Option.some.injEq] at hq
        rw [hrets, hq]
        simp
      · rw [hrets, hpct, List.tail_cons]

/-- C1: the shared execute pattern asks the store to run a query at most
twice, always with the identical query; a first failure triggers exactly one
repair (close the cursor, and only when that close also fails, close and
reopen the connection, then open a fresh cursor) followed by exactly one
resubmission whose failure propagates unmodified; and the event trace of each
retrieval operation is exactly the trace of this pattern on its rendered
query. -/
theorem C1_single_retry :
    ∀ (R : Type) (env : SessionEnv) (q : Query) (r : R),
      (execEvents (executeWithRepair env q r).2).length ≤ 2
      ∧ (∀ ev ∈ execEvents (executeWithRepair env q r).2, ev = Event.exec q)
      ∧ repairBlock false = [Event.closeCursor, Event.newCursor]
      ∧ repairBlock true
          = [Event.closeCursor, Event.closeConn, Event.reconnect, Event.newCursor]
      ∧ (env.execFails 0 = none →
          (executeWithRepair env q r).1 = Except.ok r
          ∧ (executeWithRepair env q r).2 = [Event.exec q])
      ∧ (∀ m0, env.execFails 0 = some m0 →
          (executeWithRepair env q r).2
            = Event.exec q :: (repairBlock env.closeCursorFails ++ [Event.exec q])
          ∧ (env.execFails 1 = none → (executeWithRepair env q r).1 = Except.ok r)
          ∧ (∀ m1, env.execFails 1 = some m1 →
              (executeWithRepair env q r).1 = Except.error m1))
      ∧ (∀ tbl, (fetchTradingDays env tbl).2
          = (executeWithRepair env Query.tradingDaysQ (tradingDaysRows tbl)).2)
      ∧ (∀ exps, (fetchExpiryDays env exps "SPXW").2
          = (executeWithRepair env Query.expiryDaysQ (expiryDaysRows exps)).2)
      ∧ (∀ tbl s e, (fetchDataIndex env tbl "SPX" s e).2
          = (executeWithRepair env (Query.indexBarsQ "SPX" s (e + 1))
              (indexBarsRows tbl s (e + 1))).2)
      ∧ (∀ rows s e strike ex cp, (fetchDataOptions env rows "SPXW" s e strike ex cp).2
          = (executeWithRepair env (Query.optionBarsQ "SPXW" s (e + 1) strike ex cp)
              rows).2)
      ∧ (∀ months sym, (fetchContractMonthFutures env months sym).2
          = (executeWithRepair env (Query.contractMonthsQ sym)
              (contractMonthRows months)).2)
      ∧ (∀ ftbl sym s e cm, (fetchDataFutures env ftbl sym s e cm).2
          = (executeWithRepair env (Query.futuresBarsQ sym s (e + 1) cm)
              (futuresBarsRows ftbl s (e + 1) cm)).2) := by
  intro R env q r
  have htr := executeWithRepair_trace env q r
  refine ⟨?_, ?_, rfl, rfl, ?_, ?_, ?_, ?_, ?_, ?_, ?_, ?_⟩
  · rw [htr]
    cases h0 : env.execFails 0
    · simp [execEvents_single]
    · rw [execEvents_repaired]
      simp
  · intro ev hev
    rw [htr] at hev
    cases h0 : env.execFails 0 <;> rw [h0] at hev
    · rw [execEvents_single] at hev
      simpa using hev
    · rw [execEvents_repaired] at hev
      simp only [List.mem_cons, List.mem_singleton] at hev
      rcases hev with h | h | h
      · exact h
      · exact h
      · exact absurd h (by simp)
  · intro h0
    unfold executeWithRepair
    rw [h0]
    exact ⟨rfl, rfl⟩
  · intro m0 h0
    refine ⟨by rw [htr, h0], ?_, ?_⟩
    · intro h1
      unfold executeWithRepair
      rw [h0, h1]
    · intro m1 h1
      unfold executeWithRepair
      rw [h0, h1]
  · intro tbl; rfl
  · intro exps; rfl
  · intro tbl s e; rfl
  · intro rows s e strike ex cp; rfl
  · intro months sym; rfl
  · intro ftbl sym s e cm; rfl

/-- C1 witness: an environment in which both executions fail propagates the
second failure unmodified. -/
theorem C1_single_retry_witness :
    (executeWithRepair envFailTwice Query.tradingDaysQ ([] : List Int)).1
      = Except.error "second failure" :=
  ((C1_single_retry (List Int) envFailTwice Query.tradingDaysQ
    []).2.2.2.2.2.1 "first failure" rfl).2.2 "second failure" rfl

/-- C6: for fetchExpiryDays, fetchDataIndex and fetchDataOptions an
unsupported symbol raises the validation error before any store access: the
event trace is empty, so execute is invoked zero times and no repair runs. -/
theorem C6_validation_short_circuits :
    ∀ (env : SessionEnv) (exps : List Int) (tbl storeRows : List Timestamp)
      (symbol : String) (s e strike ex : Int) (cp : String),
      (symbol ∉ (["SPXW"] : List String) →
        fetchExpiryDays env exps symbol
          = (Except.error (Err.validationErr "Invalid symbol"), []))
      ∧ (symbol ∉ (["SPX"] : List String) →
        fetchDataIndex env tbl symbol s e
          = (Except.error (Err.validationErr "Invalid symbol"), []))
      ∧ (symbol ∉ (["SPXW"] : List String) →
        fetchDataOptions env storeRows symbol s e strike ex cp
          = (Except.error (Err.validationErr "Invalid symbol"), [])) := by
  intro env exps tbl storeRows symbol s e strike ex cp
  refine ⟨fun h => ?_, fun h => ?_, fun h => ?_⟩
  · unfold fetchExpiryDays
    rw [if_neg h]
  · unfold fetchDataIndex
    rw [if_neg h]
  · unfold fetchDataOptions
    rw [if_neg h]

/-- C6 witness at a concrete unsupported symbol. -/
theorem C6_validation_witness :
    fetchExpiryDays envOk [] "BAD"
      = (Except.error (Err.validationErr "Invalid symbol"), [])
    ∧ fetchDataIndex envOk [] "BAD" 0 0
      = (Except.error (Err.validationErr "Invalid symbol"), [])
    ∧ fetchDataOptions envOk [] "BAD" 0 0 4235 0 "CE"
      = (Except.error (Err.validationErr "Invalid symbol"), []) :=
  ⟨(C6_validation_short_circuits envOk [] [] [] "BAD" 0 0 4235 0 "CE").1
      (by decide),
    (C6_validation_short_circuits envOk [] [] [] "BAD" 0 0 4235 0 "CE").2.1
      (by decide),
    (C6_validation_short_circuits envOk [] [] [] "BAD" 0 0 4235 0 "CE").2.2
      (by decide)⟩

/-- C10: when the store answers the calendar queries with zero rows, the
trading-days and expiry-days operations neither return an empty sequence nor
raise the not-found error: the dates (resp. Expiry) column lookup on the
empty frame fails with a KeyError. -/
theorem C10_empty_calendar_keyerror :
    ∀ (env : SessionEnv) (tbl : List Timestamp) (exps : List Int),
      execSucceeds env →
      (tradingDaysRows tbl = [] →
        (fetchTradingDays env tbl).1 = Except.error (Err.keyErr "dates"))
      ∧ (expiryDaysRows exps = [] →
        (fetchExpiryDays env exps "SPXW").1 = Except.error (Err.keyErr "Expiry")) := by
  intro env tbl exps henv
  constructor
  · intro hrows
    simp [fetchTradingDays, executeWithRepair_fst_ok _ _ _ henv, hrows]
  · intro hrows
    simp [fetchExpiryDays, executeWithRepair_fst_ok _ _ _ henv, hrows]

/-- C10 witness on an empty store. -/
theorem C10_empty_calendar_witness :
    (fetchTradingDays envOk []).1 = Except.error (Err.keyErr "dates")
    ∧ (fetchExpiryDays envOk [] "SPXW").1 = Except.error (Err.keyErr "Expiry") :=
  ⟨(C10_empty_calendar_keyerror envOk [] [] (Or.inl rfl)).1 rfl,
    (C10_empty_calendar_keyerror envOk [] [] (Or.inl rfl)).2 rfl⟩

/-- C9 amended witness at a concrete single-trade log. -/
theorem C9_amended_witness :
    ([((1 : Int), (1 / 10 : ℚ))]).length = ([((1 : Int), (110 : ℚ))]).length
    ∧ (∀ p, ([((1 : Int), (110 : ℚ))]).head? = some p →
        ([((1 : Int), (1 / 10 : ℚ))]).head? = some (p.1, (p.2 - 100) / 100))
    ∧ ([((1 : Int), (1 / 10 : ℚ))]).tail
        = (([((1 : Int), (110 : ℚ))]).tail.zip [((1 : Int), (110 : ℚ))]).map
            fun cp => (cp.1.1, (cp.1.2 - cp.2.2) / cp.2.2) :=
  C9_amended [⟨0, 1, 10⟩] 100 1 [(1, 110)] [(1, 1 / 10)]
    (by
      norm_num [generate_quantstats_report, equitySeries, datesFull, equityFull,
        sortByExit, minEntry, pctChangeDropna, List.insertionSort,
        List.orderedInsert, List.scanl, List.filterMap_cons, List.filterMap_nil])
    (by norm_num [hasConsecZero])

/-- C5 counterexample: the trading-days query has no ORDER BY and the result
is not sorted on the pandas side either, so a store scan that meets day 5
before day 3 yields the unsorted date sequence [5, 3]. -/
theorem C5_counterexample :
    (fetchTradingDays envOk [⟨5, 0⟩, ⟨3, 0⟩]).1 = Except.ok [5, 3]
    ∧ ¬ List.Sorted (· ≤ ·) ([5, 3] : List Int) := by
  exact ⟨rfl, by decide⟩

/-- C5 amended: both calendar results are free of duplicate dates, and the
fetchExpiryDays result is sorted ascending; the fetchTradingDays result comes
back in store scan order and need not be sorted. -/
theorem C5_amended :
    ∀ (env : SessionEnv) (tbl : List Timestamp) (exps rowsT rowsE : List Int),
      ((fetchTradingDays env tbl).1 = Except.ok rowsT → rowsT.Nodup)
      ∧ ((fetchExpiryDays env exps "SPXW").1 = Except.ok rowsE →
          rowsE.Nodup ∧ List.Sorted (· ≤ ·) rowsE) := by
  intro env tbl exps rowsT rowsE
  constructor
  · intro h
    simp only [fetchTradingDays] at h
    cases hr : (executeWithRepair env Query.tradingDaysQ (tradingDaysRows tbl)).1 with
    | error m => rw [hr] at h; simp at h
    | ok rows =>
        rw [hr] at h
        have hrows := executeWithRepair_ok_inv env Query.tradingDaysQ
          (tradingDaysRows tbl) rows hr
        cases rows with
        | nil => simp at h
        | cons a as =>
            simp only [List.isEmpty_cons, if_false, Bool.false_eq_true,
              Except.ok.injEq] at h
            rw [← h, hrows]
            exact List.nodup_dedup _
  · intro h
    simp only [fetchExpiryDays, List.mem_cons, List.mem_singleton, if_true,
      List.not_mem_nil, or_false] at h
    cases hr : (executeWithRepair env Query.expiryDaysQ (expiryDaysRows exps)).1 with
    | error m => rw [hr] at h; simp at h
    | ok rows =>
        rw [hr] at h
        have hrows := executeWithRepair_ok_inv env Query.expiryDaysQ
          (expiryDaysRows exps) rows hr
        cases rows with
        | nil => simp at h
        | cons a as =>
            simp only [List.isEmpty_cons, if_false, Bool.false_eq_true,
              Except.ok.injEq] at h
            have hnd : (a :: as).Nodup := by
              rw [hrows]
              exact (List.perm_insertionSort _ _).nodup_iff.mpr
                (List.nodup_dedup _)
            rw [← h]
            exact ⟨(List.perm_insertionSort _ _).nodup_iff.mpr hnd,
              List.sorted_insertionSort _ _⟩

/-- C5 amended witness on concrete store content. -/
theorem C5_amended_witness :
    ([5, 3] : List Int).Nodup
    ∧ (([4, 7] : List Int).Nodup ∧ List.Sorted (· ≤ ·) ([4, 7] : List Int)) :=
  ⟨(C5_amended envOk [⟨5, 0⟩, ⟨3, 0⟩] [7, 7, 4] [5, 3] [4, 7]).1 rfl,
    (C5_amended envOk [⟨5, 0⟩, ⟨3, 0⟩] [7, 7, 4] [5, 3] [4, 7]).2 rfl⟩

/-- C3 counterexample: the empty-result raise of fetchDataOptions carries the
dates, strike, expiry and option type but not the symbol; the raise of
fetchDataFutures carries the dates and symbol but not the contract month; and
fetchDataOptions returns an empty table when the store rows are non-empty but
all fall outside the session window (the emptiness check precedes the window
filter). -/
theorem C3_counterexample :
    (fetchDataOptions envOk [] "SPXW" 0 0 4235 19000 "CE").1
      = Except.error (Err.notFound
          ["Options data Not found", "0", "1", "4235", "19000", "CE"])
    ∧ "SPXW" ∉ ["Options data Not found", "0", "1", "4235", "19000", "CE"]
    ∧ (fetchDataOptions envOk [⟨0, 57570000⟩] "SPXW" 0 0 4235 19000 "CE").1
      = Except.ok []
    ∧ (fetchDataFutures envOk [] "ES" 0 1 "2024-03").1
      = Except.error (Err.notFound ["Futures data not found", "0", "2", "ES"])
    ∧ "2024-03" ∉ ["Futures data not found", "0", "2", "ES"] := by
  exact ⟨rfl, by decide, rfl, rfl, by decide⟩

/-- C3 amended: with zero store rows, fetchDataIndex, fetchDataFutures and
fetchDataOptions raise the not-found error whose message carries the
requested date range, plus the symbol for index and futures and the strike,
expiry and option type for options — the futures message omits the contract
month and the options message omits the symbol; index and futures results
are never empty, while options with non-empty store rows raises no error but
may shape down to an empty table. -/
theorem C3_amended :
    ∀ (env : SessionEnv) (tbl : List Timestamp) (ftbl : List FutRow)
      (storeRows : List Timestamp) (sym cm cp : String) (s e strike ex : Int),
      execSucceeds env →
      ((indexBarsRows tbl s (e + 1) = [] →
          (fetchDataIndex env tbl "SPX" s e).1
            = Except.error (Err.notFound (indexNotFoundMsg s (e + 1) "SPX")))
        ∧ (indexBarsRows tbl s (e + 1) ≠ [] →
          (fetchDataIndex env tbl "SPX" s e).1
            = Except.ok (indexBarsRows tbl s (e + 1)))
        ∧ (∀ rows, (fetchDataIndex env tbl "SPX" s e).1 = Except.ok rows →
            rows ≠ [])
        ∧ "SPX" ∈ indexNotFoundMsg s (e + 1) "SPX"
        ∧ toString s ∈ indexNotFoundMsg s (e + 1) "SPX"
        ∧ toString (e + 1) ∈ indexNotFoundMsg s (e + 1) "SPX")
      ∧ ((futuresBarsRows ftbl s (e + 1) cm = [] →
          (fetchDataFutures env ftbl sym s e cm).1
            = Except.error (Err.notFound (futuresNotFoundMsg s (e + 1) sym)))
        ∧ (futuresBarsRows ftbl s (e + 1) cm ≠ [] →
          (fetchDataFutures env ftbl sym s e cm).1
            = Except.ok (futuresBarsRows ftbl s (e + 1) cm))
        ∧ (∀ rows, (fetchDataFutures env ftbl sym s e cm).1 = Except.ok rows →
            rows ≠ [])
        ∧ sym ∈ futuresNotFoundMsg s (e + 1) sym
        ∧ toString s ∈ futuresNotFoundMsg s (e + 1) sym
        ∧ toString (e + 1) ∈ futuresNotFoundMsg s (e + 1) sym)
      ∧ ((storeRows = [] →
          (fetchDataOptions env storeRows "SPXW" s e strike ex cp).1
            = Except.error
                (Err.notFound (optionsNotFoundMsg s (e + 1) strike ex cp)))
        ∧ (storeRows ≠ [] →
          (fetchDataOptions env storeRows "SPXW" s e strike ex cp).1
            = Except.ok (shapeOptions storeRows))
        ∧ toString s ∈ optionsNotFoundMsg s (e + 1) strike ex cp
        ∧ toString (e + 1) ∈ optionsNotFoundMsg s (e + 1) strike ex cp
        ∧ toString strike ∈ optionsNotFoundMsg s (e + 1) strike ex cp
        ∧ toString ex ∈ optionsNotFoundMsg s (e + 1) strike ex cp
        ∧ cp ∈ optionsNotFoundMsg s (e + 1) strike ex cp) := by
  intro env tbl ftbl storeRows sym cm cp s e strike ex henv
  refine ⟨⟨?_, ?_, ?_, ?_, ?_, ?_⟩, ⟨?_, ?_, ?_, ?_, ?_, ?_⟩,
    ⟨?_, ?_, ?_, ?_, ?_, ?_, ?_⟩⟩
  · intro hrows
    simp [fetchDataIndex, executeWithRepair_fst_ok _ _ _ henv, hrows]
  · intro hrows
    simp [fetchDataIndex, executeWithRepair_fst_ok _ _ _ henv, hrows]
  · intro rows h
    simp only [fetchDataIndex, if_pos (show ("SPX" : String) ∈ ["SPX"] by simp),
      executeWithRepair_fst_ok _ _ _ henv] at h
    intro hc
    rw [hc] at h
    cases hrows : indexBarsRows tbl s (e + 1) with
    | nil => rw [hrows] at h; simp at h
    | cons a as => rw [hrows] at h; simp at h
  · simp [indexNotFoundMsg]
  · simp [indexNotFoundMsg]
  · simp [indexNotFoundMsg]
  · intro hrows
    simp [fetchDataFutures, executeWithRepair_fst_ok _ _ _ henv, hrows]
  · intro hrows
    simp [fetchDataFutures, executeWithRepair_fst_ok _ _ _ henv, hrows]
  · intro rows h
    simp only [fetchDataFutures, executeWithRepair_fst_ok _ _ _ henv] at h
    intro hc
    rw [hc] at h
    cases hrows : futuresBarsRows ftbl s (e + 1) cm with
    | nil => rw [hrows] at h; simp at h
    | cons a as => rw [hrows] at h; simp at h
  · simp [futuresNotFoundMsg]
  · simp [futuresNotFoundMsg]
  · simp [futuresNotFoundMsg]
  · intro hrows
    simp [fetchDataOptions, executeWithRepair_fst_ok _ _ _ henv, hrows]
  · intro hrows
    simp [fetchDataOptions, executeWithRepair_fst_ok _ _ _ henv, hrows]
  · simp [optionsNotFoundMsg]
  · simp [optionsNotFoundMsg]
  · simp [optionsNotFoundMsg]
  · simp [optionsNotFoundMsg]
  · simp [optionsNotFoundMsg]

/-- C3 amended witness on an empty index table. -/
theorem C3_amended_witness :
    (fetchDataIndex envOk [] "SPX" 0 0).1
      = Except.error (Err.notFound (indexNotFoundMsg 0 1 "SPX")) :=
  (C3_amended envOk [] [] [] "ES" "2024-03" "CE" 0 0 4235 19000
    (Or.inl rfl)).1.1 rfl

lemma tsLeB_iff (a b : Timestamp) :
    tsLeB a b = true ↔ (a.day < b.day ∨ (a.day = b.day ∧ a.ms ≤ b.ms)) := by
  simp [tsLeB]

lemma midnight_day (d : Int) : (midnight d).day = d := rfl

lemma midnight_ms (d : Int) : (midnight d).ms = 0 := rfl

lemma mem_indexBarsRows {t : Timestamp} {tbl : List Timestamp} {s eEx : Int} :
    t ∈ indexBarsRows tbl s eEx
      ↔ t ∈ tbl ∧ tsLeB (midnight s) t = true ∧ tsLeB t (midnight eEx) = true := by
  unfold indexBarsRows
  rw [List.mem_insertionSort, List.mem_filter, Bool.and_eq_true]

lemma mem_futuresBarsRows {r : FutRow} {ftbl : List FutRow} {s eEx : Int}
    {cm : String} :
    r ∈ futuresBarsRows ftbl s eEx cm
      ↔ r ∈ ftbl ∧ tsLeB (midnight s) r.ts = true
          ∧ tsLeB r.ts (midnight eEx) = true ∧ r.contractMonth = cm := by
  unfold futuresBarsRows
  rw [List.mem_insertionSort, List.mem_filter, Bool.and_eq_true,
    Bool.and_eq_true, beq_iff_eq]
  tauto

/-- C2 counterexample: the two adjacent non-overlapping requests covering
days [0, 1] and days [2, 3] both return the row timestamped at midnight of
day 2, because the adjusted range test is inclusive on both ends
(Datetime >= start AND Datetime <= end+1day). -/
theorem C2_counterexample :
    (fetchDataIndex envOk [⟨2, 0⟩] "SPX" 0 1).1 = Except.ok [⟨2, 0⟩]
    ∧ (fetchDataIndex envOk [⟨2, 0⟩] "SPX" 2 3).1 = Except.ok [⟨2, 0⟩] := by
  exact ⟨rfl, rfl⟩

/-- C2 amended: a range whose end date equals a calendar day returns every
table row of that day (end-date inclusivity via the one-day-forward
adjustment), for index and futures alike; and a row returned by both of two
adjacent non-overlapping ranges (one ending on day D, the next starting on
day D+1) is necessarily timestamped exactly at midnight of day D+1 — rows
with any later time-of-day are never shared. -/
theorem C2_amended :
    ∀ (env : SessionEnv) (tbl : List Timestamp) (ftbl : List FutRow)
      (cm : String) (s D e : Int) (t : Timestamp) (fr : FutRow),
      (execSucceeds env → s ≤ D → D ≤ e → t ∈ tbl → t.day = D →
        ∃ rows, (fetchDataIndex env tbl "SPX" s e).1 = Except.ok rows ∧ t ∈ rows)
      ∧ (t ∈ indexBarsRows tbl s (D + 1) → t ∈ indexBarsRows tbl (D + 1) (e + 1) →
          t = midnight (D + 1))
      ∧ (execSucceeds env → s ≤ D → D ≤ e → fr ∈ ftbl → fr.ts.day = D →
          fr.contractMonth = cm →
          ∃ rows, (fetchDataFutures env ftbl "ES" s e cm).1 = Except.ok rows
            ∧ fr ∈ rows)
      ∧ (fr ∈ futuresBarsRows ftbl s (D + 1) cm →
          fr ∈ futuresBarsRows ftbl (D + 1) (e + 1) cm → fr.ts = midnight (D + 1)) := by
  intro env tbl ftbl cm s D e t fr
  refine ⟨?_, ?_, ?_, ?_⟩
  · intro henv hsD hDe hmem hday
    have ht : t ∈ indexBarsRows tbl s (e + 1) := by
      rw [mem_indexBarsRows]
      refine ⟨hmem, ?_, ?_⟩ <;> rw [tsLeB_iff] <;>
        simp only [midnight_day, midnight_ms] <;> omega
    refine ⟨indexBarsRows tbl s (e + 1), ?_, ht⟩
    have hne : indexBarsRows tbl s (e + 1) ≠ [] := by
      intro hc
      rw [hc] at ht
      exact absurd ht (List.not_mem_nil t)
    simp [fetchDataIndex, executeWithRepair_fst_ok _ _ _ henv, hne]
  · intro h1 h2
    rw [mem_indexBarsRows] at h1 h2
    have hu := (tsLeB_iff _ _).mp h1.2.2
    have hl := (tsLeB_iff _ _).mp h2.2.1
    cases t with
    | mk day ms =>
        simp only [midnight_day, midnight_ms] at hu hl
        simp only [midnight, Timestamp.mk.injEq]
        constructor <;> omega
  · intro henv hsD hDe hmem hday hcm
    have ht : fr ∈ futuresBarsRows ftbl s (e + 1) cm := by
      rw [mem_futuresBarsRows]
      refine ⟨hmem, ?_, ?_, hcm⟩ <;> rw [tsLeB_iff] <;>
        simp only [midnight_day, midnight_ms] <;> omega
    refine ⟨futuresBarsRows ftbl s (e + 1) cm, ?_, ht⟩
    have hne : futuresBarsRows ftbl s (e + 1) cm ≠ [] := by
      intro hc
      rw [hc] at ht
      exact absurd ht (List.not_mem_nil fr)
    simp [fetchDataFutures, executeWithRepair_fst_ok _ _ _ henv, hne]
  · intro h1 h2
    rw [mem_futuresBarsRows] at h1 h2
    have hu := (tsLeB_iff _ _).mp h1.2.2.1
    have hl := (tsLeB_iff _ _).mp h2.2.1
    cases hts : fr.ts with
    | mk day ms =>
        rw [hts] at hu hl
        simp only [midnight_day, midnight_ms] at hu hl
        simp only [midnight, Timestamp.mk.injEq]
        constructor <;> omega

/-- C2 amended witness: an intraday row of the end day is returned, and a
concrete timestamp shared by two adjacent ranges is midnight of the boundary
day. -/
theorem C2_amended_witness :
    (∃ rows, (fetchDataIndex envOk [⟨1, 600⟩] "SPX" 0 1).1 = Except.ok rows
      ∧ (⟨1, 600⟩ : Timestamp) ∈ rows)
    ∧ ((⟨2, 0⟩ : Timestamp) = midnight 2) :=
  ⟨(C2_amended envOk [⟨1, 600⟩] [] "CM" 0 1 1 ⟨1, 600⟩ ⟨⟨0, 0⟩, "CM"⟩).1
      (Or.inl rfl) (by decide) (by decide) (by decide) rfl,
    (C2_amended envOk [⟨2, 0⟩] [] "CM" 0 1 3 ⟨2, 0⟩ ⟨⟨0, 0⟩, "CM"⟩).2.1
      (by decide) (by decide)⟩

lemma roundSecMs_window (ms : Nat) (h1 : 34200000 ≤ ms) (h2 : ms ≤ 57540000) :
    34200 ≤ roundSecMs ms ∧ roundSecMs ms ≤ 57540 := by
  unfold roundSecMs
  split
  · omega
  · split
    · omega
    · split <;> omega

/-- C4 counterexample: the store row at local time 15:59:30 has a
time-of-day inside the claimed retention window 09:30:00-15:59:59, yet the
result is empty: between_time runs with the bounds 09:30 and 15:59, so the
row is dropped. -/
theorem C4_counterexample :
    (fetchDataOptions envOk [⟨3, 57570500⟩] "SPXW" 0 0 100 19000 "PE").1
      = Except.ok []
    ∧ 34200000 ≤ 57570500 ∧ 57570500 ≤ 57599999 := by
  exact ⟨rfl, by decide, by decide⟩

/-- C4 amended: every timestamp of a fetchDataOptions result is a whole
second with a time-of-day within 09:30:00-15:59:00 inclusive (hence within
the looser 09:30:00-15:59:59), and every store row whose time-of-day lies
within 09:30:00-15:59:00 — compared at sub-second precision before rounding
— is retained with its timestamp rounded to the nearest second. -/
theorem C4_amended :
    ∀ (env : SessionEnv) (storeRows : List Timestamp) (s e strike ex : Int)
      (cp : String),
      execSucceeds env → storeRows ≠ [] →
      (fetchDataOptions env storeRows "SPXW" s e strike ex cp).1
        = Except.ok (shapeOptions storeRows)
      ∧ (∀ u ∈ shapeOptions storeRows,
          u.ms % 1000 = 0 ∧ 34200000 ≤ u.ms ∧ u.ms ≤ 57540000)
      ∧ (∀ t ∈ storeRows, 34200000 ≤ t.ms → t.ms ≤ 57540000 →
          roundTsToSec t ∈ shapeOptions storeRows) := by
  intro env storeRows s e strike ex cp henv hne
  refine ⟨?_, ?_, ?_⟩
  · simp [fetchDataOptions, executeWithRepair_fst_ok _ _ _ henv, hne]
  · intro u hu
    unfold shapeOptions at hu
    rw [List.mem_map] at hu
    obtain ⟨t, htf, htu⟩ := hu
    rw [List.mem_filter] at htf
    have hwin : 34200000 ≤ t.ms ∧ t.ms ≤ 57540000 := by
      have := htf.2
      unfold betweenTimeB at this
      rw [Bool.and_eq_true, decide_eq_true_eq, decide_eq_true_eq] at this
      exact this
    have hr := roundSecMs_window t.ms hwin.1 hwin.2
    rw [← htu]
    unfold roundTsToSec
    simp only
    constructor
    · omega
    · omega
  · intro t hmem hl hh
    unfold shapeOptions
    refine List.mem_map_of_mem roundTsToSec (List.mem_filter.mpr ⟨hmem, ?_⟩)
    unfold betweenTimeB
    rw [Bool.and_eq_true, decide_eq_true_eq, decide_eq_true_eq]
    exact ⟨hl, hh⟩

/-- C4 amended witness on a single in-window store row. -/
theorem C4_amended_witness :
    (fetchDataOptions envOk [⟨0, 34200400⟩] "SPXW" 0 0 4235 19000 "CE").1
      = Except.ok (shapeOptions [⟨0, 34200400⟩]) :=
  (C4_amended envOk [⟨0, 34200400⟩] 0 0 4235 19000 "CE"
    (Or.inl rfl) (by decide)).1

end MultifyFutures
